import Mathlib

/-!
Verification of the grid state engine of the perpdex-standx repository.

Prices and sizes are embedded as exact rationals (`ℚ`); the source's
`round(x, n)` (round to `n` decimal places) is embedded as `pyRound n`,
rounding half away from zero upward (`⌊x·10^n + 1/2⌋ / 10^n`).  No
statement below evaluates `pyRound` at an exact half-way tie, so the
difference from the float banker's rounding of the source never shows.

Python `dict`s (insertion ordered) are embedded as association lists
`List (String × ℚ)`; Python's stable `sorted` is embedded as
`List.insertionSort` with a non-strict comparison, which is also stable.
-/

namespace PerpdexGrid
/-- `round(x, n)` of the source, on exact rationals. -/
def pyRound (n : ℕ) (x : ℚ) : ℚ := (⌊x * 10 ^ n + 1 / 2⌋ : ℚ) / 10 ^ n

/-- Sum of a list of rationals. -/
def sumQ (l : List ℚ) : ℚ := l.foldr (· + ·) 0

/-- Minimum of a list of rationals (Python `min`; 0 on the empty list,
which the source never reaches). -/
def listMin : List ℚ → ℚ
  | [] => 0
  | x :: xs => xs.foldl min x

/-- Maximum of a list of rationals (Python `max`). -/
def listMax : List ℚ → ℚ
  | [] => 0
  | x :: xs => xs.foldl max x

/-! ### `_split_position_into_orders` (src/grid/grid_risk.py)

The source's `while remaining > 0` loop, embedded with an explicit fuel;
each productive iteration consumes one unit of fuel, and all theorems
assume enough fuel for the loop to run to completion
(`total ≤ 2 · grid_amount · fuel` suffices). -/

def split_position_into_orders (grid_amount : ℚ) : ℕ → ℚ → List ℚ
  | 0, _ => []
  | fuel + 1, remaining =>
    let min_order_size := grid_amount * 2
    let max_order_size := grid_amount * 3
    if remaining ≤ 0 then []
    else if remaining ≤ max_order_size then [remaining]
    else if remaining ≤ max_order_size + min_order_size then
      let half := remaining / 2
      [half, remaining - half]
    else
      min_order_size :: split_position_into_orders grid_amount fuel (remaining - min_order_size)

/-! ### `calculate_grid_prices` (src/grid/grid_replenish.py) and the startup
base step (src/grid/quant_grid_universal.py, `initialize_grid_trading`) -/

def calculate_grid_prices (open_side_is_ask : Bool) (current_price : ℚ) (grid_count : ℕ)
    (grid_spread : ℚ) : List ℚ :=
  let spread_decimal := grid_spread / 100
  let open_prices := (List.range grid_count).map (fun (i : ℕ) =>
    let distance := ((i : ℚ) + 1) * spread_decimal
    let price := if !open_side_is_ask then current_price * (1 - distance)
      else current_price * (1 + distance)
    pyRound 2 price)
  open_prices.insertionSort (· ≤ ·)

/-- `base_grid_single_price` as `initialize_grid_trading` derives it from the
freshly computed ladder (`abs(open_prices[1] - open_prices[0])`, falling back
to `base_price * grid_spread/100` for a one-rung ladder). -/
def base_step_on_startup (open_side_is_ask : Bool) (base_price : ℚ) (grid_count : ℕ)
    (grid_spread : ℚ) : ℚ :=
  let open_prices := calculate_grid_prices open_side_is_ask base_price grid_count grid_spread
  if 1 < open_prices.length then |open_prices.getD 1 0 - open_prices.getD 0 0|
  else base_price * (grid_spread / 100)

/-- The spec's phrase "the absolute distance between the two closest ladder
prices", formalised on the (sorted) ladder: the least gap between adjacent
prices, which for a sorted list is the least pairwise distance. -/
def min_pairwise_gap (l : List ℚ) : ℚ :=
  listMin ((l.zip l.tail).map (fun p => |p.2 - p.1|))

/-! ### Dynamic step sizing (src/grid/quant_grid_universal.py, `run_grid_trading`) -/

/-- The control loop's `active_grid_signle_price` update from the 1-minute ATR:
`max(min_step, min(0.7 * round(atr_value, 2), max_step))` above the threshold,
else `base_step`, doubled under the open-spread alert. -/
def dynamic_active_step (atr_value base_step : ℚ) (open_spread_alert : Bool)
    (atr_threshold : ℚ) : ℚ :=
  if atr_value > atr_threshold then
    let min_step := base_step
    let max_step := base_step * 30
    let raw_step := (7/10) * pyRound 2 atr_value
    max min_step (min raw_step max_step)
  else
    if open_spread_alert then base_step * 2 else base_step

/-- The spec's `clamp(x, lo, hi)`. -/
def clampSpec (x lo hi : ℚ) : ℚ := max lo (min x hi)

/-! ### Trading state (src/grid/grid_state.py)

Only the fields read or written by the functions verified below are
embedded.  The bounded dedup caches (`processed_trade_keys`,
`recent_filled_order_ids`) are write-only in `check_order_fills` and feed no
claimed field, so they are omitted.  Python `dict`s become insertion-ordered
association lists. -/

structure GridConfig where
  open_side_is_ask : Bool
  grid_amount : ℚ
  grid_count : ℕ
  max_total_orders : ℕ
  max_position : ℚ
  aler_position : ℚ
  atr_threshold : ℚ

def GridConfig.close_side_is_ask (cfg : GridConfig) : Bool := !cfg.open_side_is_ask

structure PauseOrder where
  id : String
  price : ℚ
  amount : ℚ

structure TradingState where
  current_price : ℚ
  buy_orders : List (String × ℚ)
  sell_orders : List (String × ℚ)
  pause_orders : List PauseOrder
  pause_positions : List (ℚ × ℚ)
  pause_position_exist : Bool
  placing_pause_order : Bool
  grid_pause : Bool
  last_filled_order_is_close_side : Bool
  last_trade_price : ℚ
  available_position_size : ℚ
  active_profit : ℚ
  total_profit : ℚ
  available_reduce_profit : ℚ
  filled_count : ℕ
  base_grid_single_price : ℚ
  active_grid_signle_price : ℚ
  current_position_size : ℚ
  grid_open_spread_alert : Bool
  grid_close_spread_alert : Bool
  grid_decrease_status : Bool
  original_open_prices : List ℚ

def containsKey (book : List (String × ℚ)) (k : String) : Bool :=
  book.any (fun e => e.1 == k)

def eraseKey (book : List (String × ℚ)) (k : String) : List (String × ℚ) :=
  book.eraseP (fun e => e.1 == k)

def setKey (book : List (String × ℚ)) (k : String) (v : ℚ) : List (String × ℚ) :=
  if containsKey book k then book.map (fun e => if e.1 == k then (k, v) else e)
  else book ++ [(k, v)]

def close_orders_of (cfg : GridConfig) (st : TradingState) : List (String × ℚ) :=
  if cfg.open_side_is_ask then st.buy_orders else st.sell_orders

def open_orders_of (cfg : GridConfig) (st : TradingState) : List (String × ℚ) :=
  if cfg.open_side_is_ask then st.sell_orders else st.buy_orders

def pause_ids_of (st : TradingState) : List String :=
  st.pause_orders.map PauseOrder.id

/-! ### `_pop_order_from_books` and `check_order_fills` (src/grid/grid_order.py) -/

/-- The source's fallback scan for the resting order nearest in price
(first minimum wins, as with `diff < nearest_diff`). -/
def nearest_in_book (book : List (String × ℚ)) (price : ℚ) : Option (String × ℚ) :=
  book.foldl (fun best e =>
    match best with
    | none => some (e.1, |e.2 - price|)
    | some bd => if |e.2 - price| < bd.2 then some (e.1, |e.2 - price|) else best) none

/-- `_pop_order_from_books`, restricted to the one affected book: `some` of the
new book when an order was removed (the source's `True`), else `none`. -/
def pop_order_from_book (base_grid_single_price : ℚ) (book : List (String × ℚ))
    (order_ids : List String) (price : ℚ) : Option (List (String × ℚ)) :=
  match order_ids.find? (fun oid => containsKey book oid) with
  | some oid => some (eraseKey book oid)
  | none =>
    if book.isEmpty then none
    else
      match nearest_in_book book price with
      | none => none
      | some nd =>
        let tolerance := max (base_grid_single_price * (6/10)) (6/10)
        if nd.2 ≤ tolerance then some (eraseKey book nd.1) else none

/-- A streamed order update, already normalized to CCXT shape
(`_extract_order_id_candidates` collects the id aliases). -/
structure OrderUpdate where
  id_candidates : List String
  status : String
  side : String
  price : ℚ
  filled : ℚ
  amount : ℚ

/-- The body of `check_order_fills` for one streamed order update, under the
lock; the returned `Bool` is the `replenish` flag (the out-of-lock replenish
dispatch is a separate pass).  -/
def check_order_fills_step (cfg : GridConfig) (st : TradingState) (o : OrderUpdate) :
    TradingState × Bool :=
  let client_order_index := o.id_candidates.headD ""
  let is_ask : Bool := o.side == "sell"
  let is_close_side_order : Bool := if cfg.open_side_is_ask then !is_ask else is_ask
  if o.amount > cfg.grid_amount then (st, false)
  else if o.id_candidates.any (fun oid => (pause_ids_of st).contains oid) then (st, false)
  else
    let st1 :=
      if o.status == "open" then
        if is_ask then { st with sell_orders := setKey st.sell_orders client_order_index o.price }
        else { st with buy_orders := setKey st.buy_orders client_order_index o.price }
      else st
    if (o.status == "closed" || o.status == "filled") && decide (o.filled > 0) then
      let st2 := { st1 with
        filled_count := st1.filled_count + 1,
        last_trade_price := o.price,
        last_filled_order_is_close_side := is_close_side_order }
      let book := if is_ask then st2.sell_orders else st2.buy_orders
      match pop_order_from_book st2.base_grid_single_price book o.id_candidates o.price with
      | none => (st2, false)
      | some book2 =>
        let st3 := if is_ask then { st2 with sell_orders := book2 }
          else { st2 with buy_orders := book2 }
        if is_close_side_order then
          let once_profit := st3.base_grid_single_price * cfg.grid_amount
          ({ st3 with
              available_position_size :=
                pyRound 2 (st3.available_position_size - cfg.grid_amount),
              active_profit := st3.active_profit + once_profit,
              total_profit := st3.total_profit + once_profit,
              available_reduce_profit := st3.available_reduce_profit + once_profit }, true)
        else (st3, true)
    else (st1, false)

/-! ### `_get_current_pause_position` (src/grid/grid_risk.py) and
`check_position_limits` (src/grid/grid_position.py) -/

/-- Sum of the placeholder sizes whose price has not been reached yet
(LONG: price above spot; SHORT: below), rounded to 6 decimals. -/
def get_current_pause_position (open_side_is_ask : Bool) (current_price : ℚ)
    (pause_positions : List (ℚ × ℚ)) : ℚ :=
  if pause_positions.isEmpty then 0
  else
    pyRound 6 (pause_positions.foldl (fun total pa =>
      if (if !open_side_is_ask then pa.1 > current_price else pa.1 < current_price)
      then total + pa.2 else total) 0)

def check_position_limits (cfg : GridConfig) (st : TradingState) (position_size : ℚ) :
    TradingState :=
  let st1 := { st with current_position_size := position_size }
  let current_pause_position :=
    get_current_pause_position cfg.open_side_is_ask st.current_price st.pause_positions
  let st2 := { st1 with
    available_position_size := pyRound 2 (position_size - current_pause_position) }
  if position_size = 0 then st2
  else
    let st3 :=
      if position_size ≥ cfg.aler_position then
        { st2 with grid_open_spread_alert := true, grid_decrease_status := false }
      else
        let stb :=
          { st2 with grid_open_spread_alert := false, grid_close_spread_alert := false }
        if 0 < stb.original_open_prices.length then
          { stb with base_grid_single_price :=
            |stb.original_open_prices.getD 1 0 - stb.original_open_prices.getD 0 0| }
        else stb
    let st4 := { st3 with grid_decrease_status := false }
    if position_size > cfg.max_position then { st4 with grid_pause := true } else st4

/-! ### Concrete configurations and states used in witnesses and
counterexamples -/

def cfgLong : GridConfig :=
  { open_side_is_ask := false, grid_amount := 1/100, grid_count := 3,
    max_total_orders := 3, max_position := 5, aler_position := 1, atr_threshold := 7 }

def stBase : TradingState :=
  { current_price := 3000, buy_orders := [], sell_orders := [], pause_orders := [],
    pause_positions := [], pause_position_exist := false, placing_pause_order := false,
    grid_pause := false, last_filled_order_is_close_side := true, last_trade_price := 3000,
    available_position_size := 0, active_profit := 0, total_profit := 0,
    available_reduce_profit := 0, filled_count := 0, base_grid_single_price := 3/2,
    active_grid_signle_price := 3/2, current_position_size := 0,
    grid_open_spread_alert := false, grid_close_spread_alert := false,
    grid_decrease_status := false, original_open_prices := [] }

def stC1w : TradingState :=
  { stBase with sell_orders := [("s1", 3000)], available_position_size := 7/100 }

def oC1w : OrderUpdate :=
  { id_candidates := ["s1"], status := "filled", side := "sell", price := 3000,
    filled := 1/100, amount := 1/100 }

/-! ### `_check_duplicate_orders` (src/grid/grid_order.py) -/

instance {α : Type} : DecidableRel (fun (a b : α × ℚ) => a.2 ≤ b.2) :=
  fun a b => inferInstanceAs (Decidable (a.2 ≤ b.2))

instance {α : Type} : DecidableRel (fun (a b : α × ℚ) => b.2 ≤ a.2) :=
  fun a b => inferInstanceAs (Decidable (b.2 ≤ a.2))

instance {α : Type} : IsTotal (α × ℚ) (fun a b => a.2 ≤ b.2) :=
  ⟨fun a b => le_total a.2 b.2⟩

instance {α : Type} : IsTrans (α × ℚ) (fun a b => a.2 ≤ b.2) :=
  ⟨fun _ _ _ hab hbc => le_trans hab hbc⟩

instance {α : Type} : IsTotal (α × ℚ) (fun a b => b.2 ≤ a.2) :=
  ⟨fun a b => le_total b.2 a.2⟩

instance {α : Type} : IsTrans (α × ℚ) (fun a b => b.2 ≤ a.2) :=
  ⟨fun _ _ _ hab hbc => le_trans hbc hab⟩

/-- The scan of `_check_duplicate_orders`: walk the price-sorted entries,
cancelling any order whose 4-decimal-rounded price equals the (raw) previous
price, updating `prev_price` to the raw price each step. -/
def dup_scan : Option ℚ → List (String × ℚ) → List String
  | _, [] => []
  | prev, e :: rest =>
    (match prev with
     | some prev_price => if pyRound 4 e.2 = pyRound 4 prev_price then [e.1] else []
     | none => []) ++ dup_scan (some e.2) rest

/-- `_check_duplicate_orders`: ids cancelled from one side's book (the source
sorts the dict items by price ascending and then scans). -/
def check_duplicate_orders_cancels (orders : List (String × ℚ)) : List String :=
  if orders.length > 0 then
    dup_scan none (orders.insertionSort (fun a b => a.2 ≤ b.2))
  else []

/-! ### Close-side overflow pruning (src/grid/grid_order.py, `check_current_orders`) -/

/-- The cancel-collection loop: walk the sorted close orders, skip placeholder
ids, and collect entries until `cancel_count` is reached. -/
def takeCancelPairs (pause_ids : List String) : List (String × ℚ) → ℕ → List (String × ℚ)
  | [], _ => []
  | e :: rest, k =>
    if pause_ids.contains e.1 then takeCancelPairs pause_ids rest k
    else
      match k with
      | 0 => []
      | k' + 1 => e :: takeCancelPairs pause_ids rest k'

/-- The close-side overflow pass of `check_current_orders`: when
`count(close) > MAX_TOTAL_ORDERS`, sort the close side with the furthest
first (descending prices for LONG, ascending for SHORT) and collect
`count − MAX_TOTAL_ORDERS + 2` non-placeholder entries to cancel. -/
def close_overflow_cancels (cfg : GridConfig) (st : TradingState) : List (String × ℚ) :=
  let close_orders := close_orders_of cfg st
  if close_orders.length > cfg.max_total_orders then
    let sorted_orders :=
      if !cfg.open_side_is_ask then close_orders.insertionSort (fun a b => b.2 ≤ a.2)
      else close_orders.insertionSort (fun a b => a.2 ≤ b.2)
    let cancel_count := close_orders.length - cfg.max_total_orders + 2
    takeCancelPairs (pause_ids_of st) sorted_orders cancel_count
  else []

def stC3 : TradingState :=
  { stBase with sell_orders := [("a", 10), ("b", 11), ("c", 12), ("d", 13)] }

/-! ### Placeholder parking (src/grid/grid_risk.py, `_save_pause_position` and
`_calculate_order_prices`) -/

/-- `_calculate_order_prices`: sort the indexed amounts descending (stable),
lay out centered position offsets, and scatter each price back to its
original index in a zero-initialised result list. -/
def calculate_order_prices (breakeven_price price_step : ℚ) (order_count : ℕ)
    (order_amounts : List ℚ) (multiplier : ℚ) : List ℚ :=
  let indexed_amounts := (order_amounts.enum).insertionSort (fun a b => b.2 ≤ a.2)
  let positions : List ℚ :=
    if order_count = 1 then [0]
    else (List.range order_count).map (fun (i : ℕ) => (order_count : ℚ) / 2 - 1 / 2 - i)
  (indexed_amounts.enum).foldl
    (fun result ie =>
      result.set ie.2.1
        (breakeven_price + (positions.getD ie.1 0) * price_step * multiplier))
    (List.replicate order_count (0 : ℚ))

/-- The placeholder order prices of `_save_pause_position` after the
price-safety correction but before the final round-to-2-decimals.  Note the
correction compares against `last_trade_price` (the source rebinds it as
`current_price`), not the live `current_price` field. -/
def save_pause_position_prices (fuel : ℕ) (cfg : GridConfig) (st : TradingState) :
    List ℚ :=
  let total_position := st.available_position_size
  let grid_amount := cfg.grid_amount
  let position_price_range := total_position / grid_amount * st.active_grid_signle_price
  let multiplier : ℚ := if !cfg.open_side_is_ask then 1 else -1
  let breakeven_price := st.last_trade_price + position_price_range / 2 * multiplier
  let current_price := st.last_trade_price
  let safe_buffer := st.active_grid_signle_price * (1 / 2)
  if total_position > grid_amount * 4 then
    let order_amounts0 := split_position_into_orders grid_amount fuel total_position
    let order_amounts :=
      if sumQ order_amounts0 > total_position + 1 / 1000000 then [total_position]
      else order_amounts0
    let order_count := order_amounts.length
    let avg_multiple := (total_position / grid_amount) / order_count
    let price_step := st.active_grid_signle_price * avg_multiple
    let order_prices :=
      calculate_order_prices breakeven_price price_step order_count order_amounts multiplier
    if !cfg.open_side_is_ask then
      if listMin order_prices ≤ current_price then
        order_prices.map (fun p => p + (current_price - listMin order_prices + safe_buffer))
      else order_prices
    else
      if listMax order_prices ≥ current_price then
        order_prices.map (fun p => p - (listMax order_prices - current_price + safe_buffer))
      else order_prices
  else
    if !cfg.open_side_is_ask then
      [if breakeven_price ≤ current_price then current_price + safe_buffer
       else breakeven_price]
    else
      [if breakeven_price ≥ current_price then current_price - safe_buffer
       else breakeven_price]

/-- `_save_pause_position`: `some` of the `(is_ask, price, amount)` batch
passed to `place_multi_orders`, or `none` when a guard returns early.  The
split-branch amounts are recomputed here so that the pre-round prices can be
stated separately; the pairing `zip prices amounts` matches the source's
per-branch constructions. -/
def save_pause_position_orders (fuel : ℕ) (cfg : GridConfig) (st : TradingState) :
    Option (List (Bool × ℚ × ℚ)) :=
  if st.placing_pause_order then none
  else if st.pause_position_exist then none
  else if st.available_position_size < cfg.grid_amount then none
  else if st.last_trade_price ≤ 0 then none
  else
    let total_position := st.available_position_size
    let grid_amount := cfg.grid_amount
    let prices := save_pause_position_prices fuel cfg st
    let amounts :=
      if total_position > grid_amount * 4 then
        let order_amounts0 := split_position_into_orders grid_amount fuel total_position
        if sumQ order_amounts0 > total_position + 1 / 1000000 then [total_position]
        else order_amounts0
      else [total_position]
    let orders := (prices.zip amounts).map
      (fun pa => (cfg.close_side_is_ask, pyRound 2 pa.1, pyRound 2 pa.2))
    if sumQ (orders.map (fun o => o.2.2)) > st.available_position_size + 1 / 1000000 then
      none
    else some orders

def stC2 : TradingState :=
  { stBase with
    available_position_size := 6/100,
    current_price := 3002,
    last_trade_price := 3000 }

/-! ### Open-side-fill replenishment (src/grid/grid_replenish.py,
`_on_open_side_filled`, `_calc_next_open_side_open_order`,
`_calc_next_open_side_close_order`) -/

def values_min (book : List (String × ℚ)) : ℚ := listMin (book.map Prod.snd)

def values_max (book : List (String × ℚ)) : ℚ := listMax (book.map Prod.snd)

/-- The safety `while` loop of `_calc_next_open_side_open_order`: step away
from `current_price` until strictly past it (fuel-bounded). -/
def shift_past_current (open_side_is_ask : Bool) (current step : ℚ) :
    ℕ → ℚ → ℚ
  | 0, p => p
  | fuel + 1, p =>
    if !open_side_is_ask then
      if p ≥ current then shift_past_current open_side_is_ask current step fuel
        (pyRound 2 (p - step))
      else p
    else
      if p ≤ current then shift_past_current open_side_is_ask current step fuel
        (pyRound 2 (p + step))
      else p

/-- `_calc_next_open_side_open_order` (always returns an order tuple). -/
def calc_next_open_side_open_order (fuel : ℕ) (cfg : GridConfig) (st : TradingState) :
    Bool × ℚ × ℚ :=
  let furthest_price :=
    if (open_orders_of cfg st).length > 0 then
      if !cfg.open_side_is_ask then values_min (open_orders_of cfg st)
      else values_max (open_orders_of cfg st)
    else
      let multiplier : ℚ := if !cfg.open_side_is_ask then -1 else 1
      st.current_price + st.active_grid_signle_price * multiplier
  let multiplier : ℚ := if !cfg.open_side_is_ask then -1 else 1
  let new_price0 := pyRound 2 (furthest_price + st.active_grid_signle_price * multiplier)
  let new_price := shift_past_current cfg.open_side_is_ask st.current_price
    st.active_grid_signle_price fuel new_price0
  (cfg.open_side_is_ask, new_price, cfg.grid_amount)

/-- Steps 1–5 of `_calc_next_open_side_close_order`: the candidate paired
close price before the final profitable-side check. -/
def next_open_side_close_price (cfg : GridConfig) (st : TradingState)
    (trade_price : ℚ) : ℚ :=
  let nearest_close_price :=
    if (close_orders_of cfg st).length > 0 then
      if !cfg.open_side_is_ask then values_min (close_orders_of cfg st)
      else values_max (close_orders_of cfg st)
    else
      if !cfg.open_side_is_ask then st.current_price + st.base_grid_single_price * 2
      else st.current_price - st.base_grid_single_price * 2
  let nearest_open_price :=
    if (open_orders_of cfg st).length > 0 then
      if !cfg.open_side_is_ask then values_max (open_orders_of cfg st)
      else values_min (open_orders_of cfg st)
    else
      if !cfg.open_side_is_ask then st.current_price - st.base_grid_single_price
      else st.current_price + st.base_grid_single_price
  let multiplier : ℚ := if !cfg.open_side_is_ask then -1 else 1
  let p1 := pyRound 2 (nearest_close_price + st.base_grid_single_price * multiplier)
  let price_multiplier : ℚ := if !cfg.open_side_is_ask then 1 else -1
  let p2 :=
    if trade_price > 0 then
      pyRound 2 (trade_price + st.base_grid_single_price * price_multiplier)
    else p1
  if |p2 - st.current_price| > st.base_grid_single_price * 2 then
    pyRound 2 (nearest_open_price +
      (st.active_grid_signle_price + st.base_grid_single_price) * price_multiplier)
  else p2

/-- Step 6 of `_calc_next_open_side_close_order`: emit the paired close rung
only if strictly on the profitable side of `current_price`. -/
def calc_next_open_side_close_order (cfg : GridConfig) (st : TradingState)
    (trade_price : ℚ) : Option (Bool × ℚ × ℚ) :=
  let p := next_open_side_close_price cfg st trade_price
  if !cfg.open_side_is_ask then
    if st.current_price < p then some (cfg.close_side_is_ask, p, cfg.grid_amount)
    else none
  else
    if st.current_price > p then some (cfg.close_side_is_ask, p, cfg.grid_amount)
    else none

/-- `_on_open_side_filled`: the state after the pass together with the batch
sent to `place_multi_orders` (`[]` when nothing is placed); `place_ok` and
`new_ids` stand for the gateway's reply. -/
def on_open_side_filled (fuel : ℕ) (cfg : GridConfig) (st : TradingState)
    (trade_price : ℚ) (place_ok : Bool) (new_ids : List String) :
    TradingState × List (Bool × ℚ × ℚ) :=
  if st.last_filled_order_is_close_side then (st, [])
  else
    let orders0 : List (Bool × ℚ × ℚ) :=
      if st.grid_pause = false ∧ (open_orders_of cfg st).length < cfg.grid_count then
        [calc_next_open_side_open_order fuel cfg st]
      else []
    match calc_next_open_side_close_order cfg st trade_price with
    | none => (st, [])
    | some co =>
      let orders := orders0 ++ [co]
      if place_ok then
        let st2 := (new_ids.zip orders).foldl
          (fun s io =>
            if io.2.1 then { s with sell_orders := setKey s.sell_orders io.1 io.2.2.1 }
            else { s with buy_orders := setKey s.buy_orders io.1 io.2.2.1 })
          st
        (st2, orders)
      else (st, orders)

def stC10 : TradingState :=
  { stBase with
    last_filled_order_is_close_side := false,
    buy_orders := [("b1", 5997/2)] }

/-! ### Theorems -/

theorem pyRound_nonneg (n : ℕ) {x : ℚ} (h : 0 ≤ x) : 0 ≤ pyRound n x := by
  unfold pyRound
  apply div_nonneg _ (by positivity)
  have : (0 : ℤ) ≤ ⌊x * 10 ^ n + 1 / 2⌋ := by
    apply Int.floor_nonneg.mpr
    positivity
  exact_mod_cast this

theorem pyRound_eq_self {n : ℕ} {x : ℚ} {k : ℤ} (hk : x = (k : ℚ) / 10 ^ n) :
    pyRound n x = x := by
  subst hk
  unfold pyRound
  have h10 : ((10 : ℚ) ^ n) ≠ 0 := by positivity
  rw [div_mul_cancel₀ _ h10]
  norm_num

theorem sumQ_nil : sumQ [] = 0 := rfl

theorem sumQ_cons (x : ℚ) (l : List ℚ) : sumQ (x :: l) = x + sumQ l := rfl

theorem foldl_min_le_init : ∀ (l : List ℚ) (a : ℚ), l.foldl min a ≤ a := by
  intro l
  induction l with
  | nil => intro a; exact le_refl a
  | cons y ys ih =>
    intro a
    calc (y :: ys).foldl min a = ys.foldl min (min a y) := rfl
      _ ≤ min a y := ih _
      _ ≤ a := min_le_left _ _

theorem foldl_min_le : ∀ (l : List ℚ) (a : ℚ), ∀ x ∈ l, l.foldl min a ≤ x := by
  intro l
  induction l with
  | nil => intro a x hx; cases hx
  | cons y ys ih =>
    intro a x hx
    rcases List.mem_cons.mp hx with h | h
    · subst h
      calc (x :: ys).foldl min a = ys.foldl min (min a x) := rfl
        _ ≤ min a x := foldl_min_le_init _ _
        _ ≤ x := min_le_right _ _
    · exact ih (min a y) x h

theorem listMin_le {l : List ℚ} : ∀ x ∈ l, listMin l ≤ x := by
  cases l with
  | nil => intro x hx; cases hx
  | cons y ys =>
    intro x hx
    rcases List.mem_cons.mp hx with h | h
    · subst h
      calc listMin (x :: ys) = ys.foldl min x := rfl
        _ ≤ x := foldl_min_le_init _ _
    · exact foldl_min_le ys y x h

theorem le_foldl_max_init : ∀ (l : List ℚ) (a : ℚ), a ≤ l.foldl max a := by
  intro l
  induction l with
  | nil => intro a; exact le_refl a
  | cons y ys ih =>
    intro a
    calc a ≤ max a y := le_max_left _ _
      _ ≤ ys.foldl max (max a y) := ih _

theorem le_foldl_max : ∀ (l : List ℚ) (a : ℚ), ∀ x ∈ l, x ≤ l.foldl max a := by
  intro l
  induction l with
  | nil => intro a x hx; cases hx
  | cons y ys ih =>
    intro a x hx
    rcases List.mem_cons.mp hx with h | h
    · subst h
      calc x ≤ max a x := le_max_right _ _
        _ ≤ ys.foldl max (max a x) := le_foldl_max_init _ _
    · exact ih (max a y) x h

theorem le_listMax {l : List ℚ} : ∀ x ∈ l, x ≤ listMax l := by
  cases l with
  | nil => intro x hx; cases hx
  | cons y ys =>
    intro x hx
    rcases List.mem_cons.mp hx with h | h
    · subst h
      calc x ≤ ys.foldl max x := le_foldl_max_init _ _
        _ = listMax (x :: ys) := rfl
    · exact le_foldl_max ys y x h

theorem split_sum (g : ℚ) (hg : 0 < g) :
    ∀ (fuel : ℕ) (r : ℚ), 0 < r → r ≤ 2 * g * fuel →
      sumQ (split_position_into_orders g fuel r) = r := by
  intro fuel
  induction fuel with
  | zero =>
    intro r hr hle
    simp at hle
    linarith
  | succ n ih =>
    intro r hr hle
    unfold split_position_into_orders
    simp only []
    rw [if_neg (by linarith)]
    by_cases h3 : r ≤ g * 3
    · rw [if_pos h3]
      simp [sumQ]
    · rw [if_neg h3]
      by_cases h5 : r ≤ g * 3 + g * 2
      · rw [if_pos h5]
        show r / 2 + (r - r / 2 + 0) = r
        ring
      · rw [if_neg h5]
        rw [sumQ_cons, ih (r - g * 2) (by linarith)]
        · ring
        · have : (n : ℚ) + 1 = ((n + 1 : ℕ) : ℚ) := by push_cast; ring
          push_cast at hle ⊢
          nlinarith

theorem split_mem_bounds (g : ℚ) (hg : 0 < g) :
    ∀ (fuel : ℕ) (r : ℚ), g * 3 < r → r ≤ 2 * g * fuel →
      ∀ x ∈ split_position_into_orders g fuel r, g * (3 / 2) < x ∧ x ≤ g * (5 / 2) := by
  intro fuel
  induction fuel with
  | zero =>
    intro r hr hle
    simp at hle
    intro x hx
    nlinarith
  | succ n ih =>
    intro r hr hle x hx
    unfold split_position_into_orders at hx
    simp only [] at hx
    rw [if_neg (by nlinarith)] at hx
    rw [if_neg (by linarith)] at hx
    by_cases h5 : r ≤ g * 3 + g * 2
    · rw [if_pos h5] at hx
      simp at hx
      rcases hx with h | h <;> subst h <;> constructor <;> linarith
    · rw [if_neg h5] at hx
      rcases List.mem_cons.mp hx with h | h
      · subst h
        constructor <;> nlinarith
      · refine ih (r - g * 2) (by linarith) ?_ x h
        push_cast at hle ⊢
        nlinarith

theorem calculate_grid_prices_perm (oa : Bool) (P s : ℚ) (n : ℕ) :
    (calculate_grid_prices oa P n s).Perm
      ((List.range n).map (fun (i : ℕ) =>
        pyRound 2 (P * (1 + (if oa then 1 else -1) * (((i : ℚ) + 1) * s / 100))))) := by
  unfold calculate_grid_prices
  refine (List.perm_insertionSort _ _).trans ?_
  have : ∀ i : ℕ,
      pyRound 2 (if !oa then P * (1 - ((i : ℚ) + 1) * (s / 100))
        else P * (1 + ((i : ℚ) + 1) * (s / 100)))
      = pyRound 2 (P * (1 + (if oa then 1 else -1) * (((i : ℚ) + 1) * s / 100))) := by
    intro i
    cases oa <;> simp <;> ring_nf
  simp only [this]
  exact List.Perm.refl _

theorem calculate_grid_prices_length (oa : Bool) (P s : ℚ) (n : ℕ) :
    (calculate_grid_prices oa P n s).length = n := by
  unfold calculate_grid_prices
  rw [List.length_insertionSort, List.length_map, List.length_range]

theorem calculate_grid_prices_sorted (oa : Bool) (P s : ℚ) (n : ℕ) :
    (calculate_grid_prices oa P n s).Sorted (· ≤ ·) :=
  List.sorted_insertionSort _ _

/-- C4 counterexample: with `grid_amount = 0.01` and `total_position = 0.055`
(which exceeds `4·grid_amount = 0.04`), the split rule emits
`[0.02, 0.0175, 0.0175]`; the middle size `0.0175` is not the last element,
is below `2·grid_amount = 0.02`, and the total `0.055` is not smaller than
`2·grid_amount` — refuting the claim that every emitted size lies in
`[2·grid_amount, 3·grid_amount]` with only the last allowed smaller. -/
theorem C4_split_bounds_counterexample :
    split_position_into_orders (1/100) 3 (11/200) = [1/50, 7/400, 7/400]
    ∧ (11/200 : ℚ) > 4 * (1/100)
    ∧ (7/400 : ℚ) < 2 * (1/100) := by
  refine ⟨?_, by norm_num, by norm_num⟩
  norm_num [split_position_into_orders]

/-- C4 (amended): for every `total_position > 4·grid_amount` with
`grid_amount > 0` (and fuel covering the loop), every size emitted by the
placeholder split rule lies in the interval `(1.5·grid_amount, 2.5·grid_amount]`
— not `[2·grid_amount, 3·grid_amount]` as claimed. -/
theorem C4_split_bounds_amended (g r : ℚ) (fuel : ℕ) (hg : 0 < g) (hr : 4 * g < r)
    (hfuel : r ≤ 2 * g * fuel) :
    ∀ x ∈ split_position_into_orders g fuel r, g * (3 / 2) < x ∧ x ≤ g * (5 / 2) :=
  split_mem_bounds g hg fuel r (by linarith) hfuel

theorem C4_split_bounds_witness :
    (1/100 : ℚ) * (3 / 2) < 7/400 ∧ (7/400 : ℚ) ≤ (1/100 : ℚ) * (5 / 2) :=
  C4_split_bounds_amended (1/100) (11/200) 3 (by norm_num) (by norm_num) (by norm_num)
    (7/400)
    (by
      rw [show split_position_into_orders (1/100) 3 (11/200) = [1/50, 7/400, 7/400]
        from by norm_num [split_position_into_orders]]
      simp)

/-- C5 (confirmed): for every `total_position > 0` and `grid_amount > 0`
(and fuel covering the loop), the sizes emitted by the placeholder split rule
sum exactly to `total_position` — exact in the rational embedding. -/
theorem C5_split_sum (g r : ℚ) (fuel : ℕ) (hg : 0 < g) (hr : 0 < r)
    (hfuel : r ≤ 2 * g * fuel) :
    sumQ (split_position_into_orders g fuel r) = r :=
  split_sum g hg fuel r hr hfuel

theorem C5_split_sum_witness :
    sumQ (split_position_into_orders (1/100) 4 (7/100)) = 7/100 :=
  C5_split_sum (1/100) (7/100) 4 (by norm_num) (by norm_num) (by norm_num)

/-- C6 counterexample: with base price `1000.004`, `grid_count = 3` and
`grid_spread = 0.0014`, the LONG ladder is `[999.96, 999.98, 999.99]`; the
code sets `base_step = |prices[1] − prices[0]| = 0.02`, while the distance
between the two closest ladder prices is `0.01` — refuting the claim that
`base_step` is the absolute distance between the two closest ladder prices. -/
theorem C6_ladder_counterexample :
    calculate_grid_prices false (250001/250) 3 (7/5000) = [24999/25, 49999/50, 99999/100]
    ∧ base_step_on_startup false (250001/250) 3 (7/5000) = 1/50
    ∧ min_pairwise_gap (calculate_grid_prices false (250001/250) 3 (7/5000)) = 1/100
    ∧ (1/50 : ℚ) ≠ 1/100 := by
  have hl : calculate_grid_prices false (250001/250) 3 (7/5000)
      = [24999/25, 49999/50, 99999/100] := by
    norm_num [calculate_grid_prices, pyRound, List.range_succ, List.insertionSort,
      List.orderedInsert]
  refine ⟨hl, ?_, ?_, by norm_num⟩
  · rw [base_step_on_startup, hl]
    norm_num
  · rw [hl]
    norm_num [min_pairwise_gap, listMin, abs_of_nonneg, min_def]

/-- C6 (amended): for every base price, count and spread, the initial
open-side ladder is the ascending sort of the prices
`P·(1 − i·s/100)` (LONG; `1 + i·s/100` for SHORT) for `i = 1..n`, each
rounded to 2 decimals, and `base_step` is `prices[1] − prices[0]` of the
sorted ladder (its two lowest rungs — not necessarily the two closest);
in particular `P = 3000.00, n = 3, s = 0.05` yields buys at
`2995.50, 2997.00, 2998.50` and `base_step = 1.50`. -/
theorem C6_ladder_amended (oa : Bool) (P s : ℚ) (n : ℕ) :
    (calculate_grid_prices oa P n s).Sorted (· ≤ ·)
    ∧ (calculate_grid_prices oa P n s).Perm
        ((List.range n).map (fun (i : ℕ) =>
          pyRound 2 (P * (1 + (if oa then 1 else -1) * (((i : ℚ) + 1) * s / 100)))))
    ∧ (calculate_grid_prices oa P n s).length = n
    ∧ (2 ≤ n → base_step_on_startup oa P n s =
        (calculate_grid_prices oa P n s).getD 1 0
          - (calculate_grid_prices oa P n s).getD 0 0)
    ∧ calculate_grid_prices false 3000 3 (1/20) = [5991/2, 2997, 5997/2]
    ∧ base_step_on_startup false 3000 3 (1/20) = 3/2 := by
  have hex : calculate_grid_prices false 3000 3 (1/20) = [5991/2, 2997, 5997/2] := by
    norm_num [calculate_grid_prices, pyRound, List.range_succ, List.insertionSort,
      List.orderedInsert]
  refine ⟨calculate_grid_prices_sorted oa P s n, calculate_grid_prices_perm oa P s n,
    calculate_grid_prices_length oa P s n, ?_, hex, ?_⟩
  · intro hn
    have hlen : 1 < (calculate_grid_prices oa P n s).length := by
      rw [calculate_grid_prices_length]; omega
    have hsorted := calculate_grid_prices_sorted oa P s n
    rw [base_step_on_startup, if_pos hlen]
    rcases hll : calculate_grid_prices oa P n s with _ | ⟨a, _ | ⟨b, t⟩⟩
    · rw [hll] at hlen; simp at hlen
    · rw [hll] at hlen; simp at hlen
    · rw [hll] at hsorted
      have hab : a ≤ b := List.rel_of_sorted_cons hsorted b (by simp)
      simp [abs_of_nonneg (by linarith : (0:ℚ) ≤ b - a)]
  · rw [base_step_on_startup, hex]
    norm_num

theorem C6_ladder_witness :
    base_step_on_startup false 3000 3 (1/20) =
      (calculate_grid_prices false 3000 3 (1/20)).getD 1 0
        - (calculate_grid_prices false 3000 3 (1/20)).getD 0 0 :=
  (C6_ladder_amended false 3000 (1/20) 3).2.2.2.1 (by norm_num)

/-- C8 counterexample: with `ATR = 10.004`, `ATR_THRESHOLD = 7` and
`base_step = 1.5`, the code first rounds the ATR to 2 decimals and sets
`active_step = clamp(0.7·10.00, 1.5, 45) = 7.0`, while the claim's formula
`clamp(0.7·ATR, base_step, 30·base_step)` gives `7.0028`. -/
theorem C8_active_step_counterexample :
    dynamic_active_step (2501/250) (3/2) false 7 = 7
    ∧ clampSpec ((7/10) * (2501/250)) (3/2) (30 * (3/2)) = 17507/2500
    ∧ (7 : ℚ) ≠ 17507/2500 := by
  refine ⟨?_, ?_, by norm_num⟩
  · norm_num [dynamic_active_step, pyRound]
  · norm_num [clampSpec, min_def, max_def]

/-- C8 (amended): when the 1-minute ATR exceeds `ATR_THRESHOLD`, the code sets
`active_step = clamp(0.7·round(ATR, 2), base_step, 30·base_step)` — equal to
the claimed `clamp(0.7·ATR, …)` exactly when the ATR value carries at most two
decimals (as in the example `ATR = 14.0 → 9.8`); when the ATR does not exceed
the threshold, `active_step = base_step`, or `2·base_step` under
`open_spread_alert`, as claimed. -/
theorem C8_active_step_amended (atr base thr : ℚ) (alert : Bool) :
    (atr > thr → dynamic_active_step atr base alert thr
        = clampSpec ((7/10) * pyRound 2 atr) base (30 * base))
    ∧ (atr > thr → pyRound 2 atr = atr →
        dynamic_active_step atr base alert thr = clampSpec ((7/10) * atr) base (30 * base))
    ∧ (¬(atr > thr) → dynamic_active_step atr base alert thr
        = (if alert then 2 * base else base)) := by
  have hbase : base * 30 = 30 * base := by ring
  have h2 : base * 2 = 2 * base := by ring
  refine ⟨?_, ?_, ?_⟩
  · intro h
    rw [dynamic_active_step, if_pos h, clampSpec]
    simp only [hbase]
  · intro h hround
    rw [dynamic_active_step, if_pos h, clampSpec, hround]
    simp only [hbase]
  · intro h
    rw [dynamic_active_step, if_neg h]
    cases alert <;> simp [h2]

theorem C8_active_step_witness :
    dynamic_active_step 14 (3/2) false 7 = clampSpec ((7/10) * 14) (3/2) (30 * (3/2))
    ∧ clampSpec ((7/10) * 14) (3/2) (30 * (3/2)) = 49/5 := by
  refine ⟨(C8_active_step_amended 14 (3/2) 7 false).2.1 (by norm_num) ?_, ?_⟩
  · norm_num [pyRound]
  · norm_num [clampSpec, min_def, max_def]

/-- What one close-side streamed fill does to the accounting fields, before
any rounding analysis. -/
theorem close_fill_step_spec (cfg : GridConfig) (st : TradingState) (o : OrderUpdate)
    (b : List (String × ℚ))
    (hamt : ¬ o.amount > cfg.grid_amount)
    (hpause : o.id_candidates.any (fun oid => (pause_ids_of st).contains oid) = false)
    (hstatus : o.status = "closed" ∨ o.status = "filled")
    (hfilled : 0 < o.filled)
    (hclose : (if cfg.open_side_is_ask then !(o.side == "sell") else (o.side == "sell")) = true)
    (hpop : pop_order_from_book st.base_grid_single_price
        (if (o.side == "sell") then st.sell_orders else st.buy_orders)
        o.id_candidates o.price = some b) :
    (check_order_fills_step cfg st o).2 = true
    ∧ (check_order_fills_step cfg st o).1.available_position_size
        = pyRound 2 (st.available_position_size - cfg.grid_amount)
    ∧ (check_order_fills_step cfg st o).1.active_profit
        = st.active_profit + st.base_grid_single_price * cfg.grid_amount
    ∧ (check_order_fills_step cfg st o).1.total_profit
        = st.total_profit + st.base_grid_single_price * cfg.grid_amount
    ∧ (check_order_fills_step cfg st o).1.available_reduce_profit
        = st.available_reduce_profit + st.base_grid_single_price * cfg.grid_amount
    ∧ (check_order_fills_step cfg st o).1.last_filled_order_is_close_side = true := by
  have hno : (o.status == "open") = false := by
    rcases hstatus with h | h <;> rw [h] <;> rfl
  have hcf : ((o.status == "closed") || (o.status == "filled")) = true := by
    rcases hstatus with h | h <;> rw [h] <;> simp
  have hdec : decide (o.filled > 0) = true := decide_eq_true hfilled
  cases hoa : cfg.open_side_is_ask with
  | false =>
    rw [hoa] at hclose
    simp only [if_neg Bool.false_ne_true] at hclose
    simp only [hclose, if_pos] at hpop
    unfold check_order_fills_step
    simp only [hoa, hno, hcf, hdec, hclose, Bool.false_eq_true, if_false, Bool.and_self,
      Bool.not_true, cond_false, Bool.true_and, Bool.and_true, if_true, if_neg hamt, hpause,
      Bool.false_eq_true, ite_false, ite_true]
    rw [hpop]
    simp
  | true =>
    rw [hoa] at hclose
    simp only [if_pos] at hclose
    have hside : (o.side == "sell") = false := by
      cases hss : (o.side == "sell")
      · rfl
      · rw [hss] at hclose; simp at hclose
    rw [hside] at hpop
    simp only [if_neg Bool.false_ne_true] at hpop
    unfold check_order_fills_step
    simp only [hoa, hno, hcf, hdec, hside, hclose, Bool.false_eq_true, if_false, Bool.and_self,
      Bool.not_false, Bool.true_and, Bool.and_true, if_true, if_neg hamt, hpause,
      ite_false, ite_true]
    rw [hpop]
    simp

/-- C1 (confirmed): a streamed order update with status `filled`/`closed` and
positive filled amount, on the close side, passing the non-grid filters, whose
order is successfully removed from its side map, decrements
`available_position_size` by exactly `grid_amount` (given the code's own
2-decimal discipline: both quantities are integer multiples of `0.01`, so the
`round(..., 2)` is exact), adds `base_grid_single_price * grid_amount` to each
of `active_profit`, `total_profit` and `available_reduce_profit`, and sets
`last_filled_order_is_close_side := true`. -/
theorem C1_close_fill_accounting (cfg : GridConfig) (st : TradingState) (o : OrderUpdate)
    (b : List (String × ℚ))
    (hamt : ¬ o.amount > cfg.grid_amount)
    (hpause : o.id_candidates.any (fun oid => (pause_ids_of st).contains oid) = false)
    (hstatus : o.status = "closed" ∨ o.status = "filled")
    (hfilled : 0 < o.filled)
    (hclose : (if cfg.open_side_is_ask then !(o.side == "sell") else (o.side == "sell")) = true)
    (hpop : pop_order_from_book st.base_grid_single_price
        (if (o.side == "sell") then st.sell_orders else st.buy_orders)
        o.id_candidates o.price = some b)
    (hk : ∃ k : ℤ, st.available_position_size = (k : ℚ) / 100)
    (hm : ∃ m : ℤ, cfg.grid_amount = (m : ℚ) / 100) :
    (check_order_fills_step cfg st o).2 = true
    ∧ (check_order_fills_step cfg st o).1.available_position_size
        = st.available_position_size - cfg.grid_amount
    ∧ (check_order_fills_step cfg st o).1.active_profit
        = st.active_profit + st.base_grid_single_price * cfg.grid_amount
    ∧ (check_order_fills_step cfg st o).1.total_profit
        = st.total_profit + st.base_grid_single_price * cfg.grid_amount
    ∧ (check_order_fills_step cfg st o).1.available_reduce_profit
        = st.available_reduce_profit + st.base_grid_single_price * cfg.grid_amount
    ∧ (check_order_fills_step cfg st o).1.last_filled_order_is_close_side = true := by
  obtain ⟨k, hk⟩ := hk
  obtain ⟨m, hm⟩ := hm
  have hround : pyRound 2 (st.available_position_size - cfg.grid_amount)
      = st.available_position_size - cfg.grid_amount := by
    apply pyRound_eq_self (k := k - m)
    rw [hk, hm]
    push_cast
    norm_num
    ring
  have h := close_fill_step_spec cfg st o b hamt hpause hstatus hfilled hclose hpop
  exact ⟨h.1, by rw [h.2.1, hround], h.2.2.1, h.2.2.2.1, h.2.2.2.2.1, h.2.2.2.2.2⟩

theorem C1_close_fill_witness :
    (check_order_fills_step cfgLong stC1w oC1w).2 = true
    ∧ (check_order_fills_step cfgLong stC1w oC1w).1.available_position_size
        = stC1w.available_position_size - cfgLong.grid_amount
    ∧ (check_order_fills_step cfgLong stC1w oC1w).1.total_profit
        = stC1w.total_profit + stC1w.base_grid_single_price * cfgLong.grid_amount
    ∧ (check_order_fills_step cfgLong stC1w oC1w).1.last_filled_order_is_close_side
        = true := by
  have h := C1_close_fill_accounting cfgLong stC1w oC1w []
    (by norm_num [oC1w, cfgLong]) (by rfl) (Or.inr rfl) (by norm_num [oC1w]) (by rfl)
    (by rfl) ⟨7, by norm_num [stC1w, stBase]⟩ ⟨1, by norm_num [cfgLong]⟩
  exact ⟨h.1, h.2.1, h.2.2.2.1, h.2.2.2.2.2⟩

/-- C9 counterexample: in a LONG state with `available_position_size = 0` and a
resting grid sell at `3000`, a streamed close-side fill of that order drives
`available_position_size` to `-0.01 < 0` — the fill handler subtracts
`grid_amount` without clamping at zero, so `available_position ≥ 0` does not
hold after every state transition. -/
theorem C9_available_nonneg_counterexample :
    (check_order_fills_step cfgLong { stBase with sell_orders := [("s1", 3000)] } oC1w).1.available_position_size
      = -(1/100)
    ∧ ¬ (0 : ℚ) ≤ -(1/100) := by
  constructor
  · have h := close_fill_step_spec cfgLong { stBase with sell_orders := [("s1", 3000)] }
      oC1w [] (by norm_num [oC1w, cfgLong]) (by rfl) (Or.inr rfl) (by norm_num [oC1w])
      (by rfl) (by rfl)
    rw [h.2.1]
    norm_num [stBase, cfgLong, pyRound]
  · norm_num

/-- C9 (amended): `available_position ≥ 0` is preserved by the streamed fill
handler provided `available_position ≥ grid_amount` held beforehand (the code
subtracts without clamping, so from `0 ≤ available < grid_amount` a close-side
fill drives it negative), and re-established by the position refresh
(`check_position_limits`) whenever the reported absolute position is at least
the pending placeholder sum. -/
theorem C9_available_nonneg_amended (cfg : GridConfig) (st : TradingState)
    (hg : 0 ≤ cfg.grid_amount) :
    (∀ o : OrderUpdate, cfg.grid_amount ≤ st.available_position_size →
      0 ≤ (check_order_fills_step cfg st o).1.available_position_size)
    ∧ (∀ position_size : ℚ,
        get_current_pause_position cfg.open_side_is_ask st.current_price st.pause_positions
          ≤ position_size →
        0 ≤ (check_position_limits cfg st position_size).available_position_size) := by
  constructor
  · intro o h
    have h0 : (0:ℚ) ≤ st.available_position_size := le_trans hg h
    have hr : 0 ≤ pyRound 2 (st.available_position_size - cfg.grid_amount) :=
      pyRound_nonneg 2 (by linarith)
    unfold check_order_fills_step
    cases hso : (o.status == "open") <;> cases hia : (o.side == "sell") <;>
      simp only [hso, hia, Bool.false_eq_true, if_false, if_true, ite_true, ite_false] <;>
      (repeat' split) <;>
      (first
        | exact h0
        | exact hr)
  · intro position_size h
    have hr : 0 ≤ pyRound 2 (position_size -
        get_current_pause_position cfg.open_side_is_ask st.current_price
          st.pause_positions) :=
      pyRound_nonneg 2 (by linarith)
    simp only [check_position_limits]
    split_ifs <;> simpa using hr

theorem C9_available_nonneg_witness :
    0 ≤ (check_order_fills_step cfgLong stC1w oC1w).1.available_position_size
    ∧ 0 ≤ (check_position_limits cfgLong stC1w (7/100)).available_position_size := by
  have h := C9_available_nonneg_amended cfgLong stC1w (by norm_num [cfgLong])
  constructor
  · exact h.1 oC1w (by norm_num [cfgLong, stC1w, stBase])
  · refine h.2 (7/100) ?_
    norm_num [get_current_pause_position, cfgLong, stC1w, stBase]

/-- C7 counterexample: two sells at `3001.27011` (id "2") and `3001.27014`
(id "1") share the same price rounded to 4 decimals; the cleanup cancels
id "1" — the *lower* id, because retention follows the ascending-price sort
(the lower-priced entry is kept), not a lower-id tie-break. -/
theorem C7_duplicate_counterexample :
    check_duplicate_orders_cancels [("2", 3001.27011), ("1", 3001.27014)] = ["1"]
    ∧ pyRound 4 (3001.27011 : ℚ) = pyRound 4 (3001.27014 : ℚ)
    ∧ (3001.27011 : ℚ) ≠ 3001.27014 := by
  refine ⟨?_, by norm_num [pyRound], by norm_num⟩
  norm_num [check_duplicate_orders_cancels, List.insertionSort, List.orderedInsert,
    dup_scan, pyRound]

/-- C7 (amended): when duplicate cleanup sees exactly two resting orders on a
side whose prices rounded to 4 decimals are equal — in either insertion
order — exactly one is cancelled: the second in the ascending-price stable
sort, i.e. the entry at the higher price (`b` when `pa ≤ pb`, `a` otherwise;
on an exact price tie the later-inserted one); the first of the sorted pair
is retained, regardless of the order ids. -/
theorem C7_duplicate_amended (a b : String) (pa pb : ℚ)
    (hro : pyRound 4 pa = pyRound 4 pb) :
    check_duplicate_orders_cancels [(a, pa), (b, pb)]
      = [if pa ≤ pb then b else a] := by
  unfold check_duplicate_orders_cancels
  rw [if_pos (by simp)]
  show dup_scan none (List.orderedInsert _ (a, pa)
    (List.orderedInsert _ (b, pb) (List.insertionSort _ []))) = _
  by_cases hab : pa ≤ pb
  · rw [if_pos hab]
    simp only [List.insertionSort, List.orderedInsert, if_pos hab]
    simp [dup_scan, hro.symm]
  · rw [if_neg hab]
    simp only [List.insertionSort, List.orderedInsert, if_neg hab]
    simp [dup_scan, hro]

theorem C7_duplicate_witness :
    check_duplicate_orders_cancels [("s1", 3001.27014), ("s9", 3001.27011)]
      = [if (3001.27014 : ℚ) ≤ 3001.27011 then "s9" else "s1"]
    ∧ (if (3001.27014 : ℚ) ≤ 3001.27011 then "s9" else "s1") = "s1" :=
  ⟨C7_duplicate_amended "s1" "s9" (3001.27014 : ℚ) (3001.27011 : ℚ)
      (by norm_num [pyRound]),
   by norm_num⟩

theorem takeCancelPairs_subset (p : List String) :
    ∀ (l : List (String × ℚ)) (k : ℕ), ∀ c ∈ takeCancelPairs p l k, c ∈ l := by
  intro l
  induction l with
  | nil => intro k c hc; cases hc
  | cons e rest ih =>
    intro k c hc
    unfold takeCancelPairs at hc
    by_cases hp : p.contains e.1
    · rw [if_pos hp] at hc
      exact List.mem_cons_of_mem e (ih k c hc)
    · rw [if_neg hp] at hc
      cases k with
      | zero => cases hc
      | succ k =>
        rcases List.mem_cons.mp hc with h | h
        · exact h ▸ List.mem_cons_self e rest
        · exact List.mem_cons_of_mem e (ih k c h)

theorem takeCancelPairs_not_pause (p : List String) :
    ∀ (l : List (String × ℚ)) (k : ℕ), ∀ c ∈ takeCancelPairs p l k,
      p.contains c.1 = false := by
  intro l
  induction l with
  | nil => intro k c hc; cases hc
  | cons e rest ih =>
    intro k c hc
    unfold takeCancelPairs at hc
    by_cases hp : p.contains e.1
    · rw [if_pos hp] at hc
      exact ih k c hc
    · rw [if_neg hp] at hc
      cases k with
      | zero => cases hc
      | succ k =>
        rcases List.mem_cons.mp hc with h | h
        · rw [h]
          cases hc2 : p.contains e.1
          · rfl
          · exact absurd hc2 hp
        · exact ih k c h

theorem takeCancelPairs_length (p : List String) :
    ∀ (l : List (String × ℚ)) (k : ℕ),
      (takeCancelPairs p l k).length
        = min k ((l.filter (fun e => !(p.contains e.1))).length) := by
  intro l
  induction l with
  | nil => intro k; simp [takeCancelPairs]
  | cons e rest ih =>
    intro k
    unfold takeCancelPairs
    by_cases hp : p.contains e.1
    · rw [if_pos hp]
      rw [ih k]
      have hf : (e :: rest).filter (fun x => !(p.contains x.1))
          = rest.filter (fun x => !(p.contains x.1)) := by
        rw [List.filter_cons, hp]
        rfl
      rw [hf]
    · rw [if_neg hp]
      have hpf : p.contains e.1 = false := by
        cases hc : p.contains e.1
        · rfl
        · exact absurd hc hp
      cases k with
      | zero => simp
      | succ k =>
        have hf : (e :: rest).filter (fun x => !(p.contains x.1))
            = e :: rest.filter (fun x => !(p.contains x.1)) := by
          rw [List.filter_cons, hpf]
          rfl
        rw [hf]
        simp only [List.length_cons, ih k]
        omega

theorem takeCancelPairs_furthest {r : (String × ℚ) → (String × ℚ) → Prop}
    (p : List String) :
    ∀ (l : List (String × ℚ)) (k : ℕ), l.Pairwise r →
      ∀ c ∈ takeCancelPairs p l k, ∀ e ∈ l,
        p.contains e.1 = false → e ∉ takeCancelPairs p l k → r c e := by
  intro l
  induction l with
  | nil => intro k _ c hc; cases hc
  | cons e0 rest ih =>
    intro k hsort c hc x hx hxp hxn
    have hpair := List.pairwise_cons.mp hsort
    unfold takeCancelPairs at hc hxn
    by_cases hp : p.contains e0.1
    · rw [if_pos hp] at hc hxn
      rcases List.mem_cons.mp hx with h | h
      · exfalso
        rw [h] at hxp
        rw [hxp] at hp
        cases hp
      · exact ih k hpair.2 c hc x h hxp hxn
    · rw [if_neg hp] at hc hxn
      cases k with
      | zero => cases hc
      | succ k =>
        rcases List.mem_cons.mp hc with hce | hce
        · rcases List.mem_cons.mp hx with h | h
          · exfalso
            exact hxn (h ▸ List.mem_cons_self e0 _)
          · exact hce ▸ hpair.1 x h
        · rcases List.mem_cons.mp hx with h | h
          · exfalso
            exact hxn (h ▸ List.mem_cons_self e0 _)
          · exact ih k hpair.2 c hce x h hxp (fun hmem => hxn (List.mem_cons_of_mem e0 hmem))

/-- C3 counterexample: LONG, `MAX_TOTAL_ORDERS = 3`, four close-side sells at
`10, 11, 12, 13` and no placeholders.  `count(close) − MAX_TOTAL_ORDERS = 1`,
but the pass collects `count − MAX + 2 = 3` cancels (the three highest), so it
does not cancel exactly `count(close) − MAX_TOTAL_ORDERS` orders. -/
theorem C3_close_overflow_counterexample :
    close_overflow_cancels cfgLong stC3 = [("d", 13), ("c", 12), ("b", 11)]
    ∧ (close_overflow_cancels cfgLong stC3).length
        ≠ (close_orders_of cfgLong stC3).length - cfgLong.max_total_orders := by
  have h : close_overflow_cancels cfgLong stC3 = [("d", 13), ("c", 12), ("b", 11)] := by
    norm_num [close_overflow_cancels, close_orders_of, pause_ids_of, cfgLong, stC3,
      stBase, List.insertionSort, List.orderedInsert, takeCancelPairs]
  refine ⟨h, ?_⟩
  rw [h]
  norm_num [close_orders_of, cfgLong, stC3, stBase]

/-- C3 (amended): whenever the close-side overflow pass runs with
`count(close) > MAX_TOTAL_ORDERS`, it collects for cancellation exactly
`min(count(close) − MAX_TOTAL_ORDERS + 2, number of non-placeholder close
orders)` close-side orders — two more than the excess, when available — all of
them non-placeholder, and each cancelled order lies at least as far from spot
as every retained non-placeholder close order (highest prices for LONG, lowest
for SHORT). -/
theorem C3_close_overflow_amended (cfg : GridConfig) (st : TradingState)
    (hover : (close_orders_of cfg st).length > cfg.max_total_orders) :
    (close_overflow_cancels cfg st).length
      = min ((close_orders_of cfg st).length - cfg.max_total_orders + 2)
          (((close_orders_of cfg st).filter
              (fun e => !((pause_ids_of st).contains e.1))).length)
    ∧ (∀ c ∈ close_overflow_cancels cfg st, (pause_ids_of st).contains c.1 = false)
    ∧ (∀ c ∈ close_overflow_cancels cfg st, ∀ e ∈ close_orders_of cfg st,
        (pause_ids_of st).contains e.1 = false → e ∉ close_overflow_cancels cfg st →
        (if cfg.open_side_is_ask then c.2 ≤ e.2 else e.2 ≤ c.2)) := by
  unfold close_overflow_cancels
  rw [if_pos hover]
  cases hoa : cfg.open_side_is_ask with
  | false =>
    simp only [hoa, Bool.not_false, if_true, Bool.false_eq_true, if_false]
    refine ⟨?_, ?_, ?_⟩
    · rw [takeCancelPairs_length]
      congr 1
      exact ((List.perm_insertionSort _ (close_orders_of cfg st)).filter _).length_eq
    · intro c hc
      exact takeCancelPairs_not_pause _ _ _ c hc
    · intro c hc e he hep hen
      exact takeCancelPairs_furthest _ _ _
        (List.sorted_insertionSort _ (close_orders_of cfg st)) c hc e
        ((List.mem_insertionSort _).mpr he) hep hen
  | true =>
    simp only [hoa, Bool.not_true, Bool.false_eq_true, if_false, if_true]
    refine ⟨?_, ?_, ?_⟩
    · rw [takeCancelPairs_length]
      congr 1
      exact ((List.perm_insertionSort _ (close_orders_of cfg st)).filter _).length_eq
    · intro c hc
      exact takeCancelPairs_not_pause _ _ _ c hc
    · intro c hc e he hep hen
      exact takeCancelPairs_furthest _ _ _
        (List.sorted_insertionSort _ (close_orders_of cfg st)) c hc e
        ((List.mem_insertionSort _).mpr he) hep hen

theorem C3_close_overflow_witness :
    (close_overflow_cancels cfgLong stC3).length
      = min ((close_orders_of cfgLong stC3).length - cfgLong.max_total_orders + 2)
          (((close_orders_of cfgLong stC3).filter
              (fun e => !((pause_ids_of stC3).contains e.1))).length)
    ∧ (∀ c ∈ close_overflow_cancels cfgLong stC3,
        (pause_ids_of stC3).contains c.1 = false)
    ∧ (∀ c ∈ close_overflow_cancels cfgLong stC3, ∀ e ∈ close_orders_of cfgLong stC3,
        (pause_ids_of stC3).contains e.1 = false →
        e ∉ close_overflow_cancels cfgLong stC3 →
        (if cfgLong.open_side_is_ask then c.2 ≤ e.2 else e.2 ≤ c.2)) :=
  C3_close_overflow_amended cfgLong stC3
    (by norm_num [close_orders_of, cfgLong, stC3, stBase])

theorem shift_prices_above (cur buf : ℚ) (hbuf : 0 < buf) (l : List ℚ) :
    ∀ p ∈ (if listMin l ≤ cur then l.map (fun q => q + (cur - listMin l + buf)) else l),
      cur < p := by
  intro p hp
  by_cases h : listMin l ≤ cur
  · rw [if_pos h] at hp
    rcases List.mem_map.mp hp with ⟨q, hq, rfl⟩
    have := listMin_le q hq
    linarith
  · rw [if_neg h] at hp
    have := listMin_le p hp
    linarith

theorem shift_prices_below (cur buf : ℚ) (hbuf : 0 < buf) (l : List ℚ) :
    ∀ p ∈ (if listMax l ≥ cur then l.map (fun q => q - (listMax l - cur + buf)) else l),
      p < cur := by
  intro p hp
  by_cases h : listMax l ≥ cur
  · rw [if_pos h] at hp
    rcases List.mem_map.mp hp with ⟨q, hq, rfl⟩
    have := le_listMax q hq
    linarith
  · rw [if_neg h] at hp
    have := le_listMax p hp
    linarith

/-- C2 counterexample: LONG, `grid_amount = 0.01`, `active_step = 1.5`,
`available_position = 0.06`, `last_trade_price = 3000`, live
`current_price = 3002`.  The parking pass places
`[(sell, 3007.5, 0.02), (sell, 3004.5, 0.02), (sell, 3001.5, 0.02)]` —
no shift fires because the safety check compares against `last_trade_price`
(3000), not `current_price` — and the rung at `3001.5` is *not* strictly above
`current_price = 3002`, refuting the claimed invariant. -/
theorem C2_pause_prices_counterexample :
    save_pause_position_orders 3 cfgLong stC2
      = some [(true, 6015/2, 1/50), (true, 6009/2, 1/50), (true, 6003/2, 1/50)]
    ∧ stC2.current_price = 3002
    ∧ ¬ (stC2.current_price < 6003/2) := by
  refine ⟨?_, by norm_num [stC2, stBase], by norm_num [stC2, stBase]⟩
  norm_num [save_pause_position_orders, save_pause_position_prices, calculate_order_prices,
    split_position_into_orders, sumQ, listMin, listMax, pyRound, cfgLong, stC2, stBase,
    GridConfig.close_side_is_ask, List.enum, List.enumFrom, List.insertionSort,
    List.orderedInsert, List.range_succ, List.replicate, List.set]

/-- C2 (amended): after the placeholder-parking pass computes its order prices
and applies its price-safety correction, every *pre-rounding* computed price
lies strictly on the profitable side of `last_trade_price` — the reference the
routine actually uses, not the live `current_price` — provided
`active_step > 0` (the correction shifts by the minimal offset plus a
`0.5·active_step` buffer); and every placed order price is the 2-decimal
rounding of one of those computed prices. -/
theorem C2_pause_prices_amended (fuel : ℕ) (cfg : GridConfig) (st : TradingState)
    (hstep : 0 < st.active_grid_signle_price) :
    (cfg.open_side_is_ask = false →
      ∀ p ∈ save_pause_position_prices fuel cfg st, st.last_trade_price < p)
    ∧ (cfg.open_side_is_ask = true →
      ∀ p ∈ save_pause_position_prices fuel cfg st, p < st.last_trade_price)
    ∧ (∀ l, save_pause_position_orders fuel cfg st = some l →
        ∀ o ∈ l, ∃ p ∈ save_pause_position_prices fuel cfg st, o.2.1 = pyRound 2 p) := by
  have hbuf : 0 < st.active_grid_signle_price * (1 / 2) := by linarith
  refine ⟨?_, ?_, ?_⟩
  · intro hoa p hp
    unfold save_pause_position_prices at hp
    simp only [hoa, Bool.not_false, if_true, ite_true] at hp
    by_cases hsplit : st.available_position_size > cfg.grid_amount * 4
    · rw [if_pos hsplit] at hp
      exact shift_prices_above st.last_trade_price
        (st.active_grid_signle_price * (1 / 2)) hbuf _ p hp
    · rw [if_neg hsplit] at hp
      rcases List.mem_singleton.mp hp with rfl
      split
      · linarith
      · next hbe => linarith [not_le.mp hbe]
  · intro hoa p hp
    unfold save_pause_position_prices at hp
    simp only [hoa, Bool.not_true, Bool.false_eq_true, if_false, ite_false] at hp
    by_cases hsplit : st.available_position_size > cfg.grid_amount * 4
    · rw [if_pos hsplit] at hp
      exact shift_prices_below st.last_trade_price
        (st.active_grid_signle_price * (1 / 2)) hbuf _ p hp
    · rw [if_neg hsplit] at hp
      rcases List.mem_singleton.mp hp with rfl
      split
      · linarith
      · next hbe => linarith [not_le.mp (by simpa using hbe)]
  · intro l hl o ho
    unfold save_pause_position_orders at hl
    split at hl
    · cases hl
    split at hl
    · cases hl
    split at hl
    · cases hl
    split at hl
    · cases hl
    dsimp only at hl
    have hopt : ∀ {A : Prop} {inst : Decidable A} (x : List (Bool × ℚ × ℚ)),
        (if A then none else some x) = some l → l = x := by
      intro A inst x hx
      split at hx
      · cases hx
      · exact (Option.some.inj hx).symm
    obtain rfl := hopt _ hl
    rcases List.mem_map.mp ho with ⟨pa, hpa, rfl⟩
    exact ⟨pa.1, (List.of_mem_zip (by simpa using hpa)).1, rfl⟩

theorem C2_pause_prices_witness :
    stC2.last_trade_price < 6003/2 :=
  (C2_pause_prices_amended 3 cfgLong stC2 (by norm_num [stC2, stBase])).1 (by rfl)
    (6003/2)
    (by
      rw [show save_pause_position_prices 3 cfgLong stC2 = [6015/2, 6009/2, 6003/2]
        from by
          norm_num [save_pause_position_prices, calculate_order_prices,
            split_position_into_orders, sumQ, listMin, listMax, pyRound, cfgLong, stC2,
            stBase, List.enum, List.enumFrom, List.insertionSort, List.orderedInsert,
            List.range_succ, List.replicate, List.set]]
      simp)

/-- C10 (confirmed): whenever the paired close rung computed after an
open-side fill fails the profitable-side check (for LONG the candidate close
price is not strictly above `current_price`, for SHORT not strictly below),
`_on_open_side_filled` places no orders at all: the already-computed new
open-side rung is abandoned and the whole state — in particular `buy_orders`
and `sell_orders` — is left unchanged by the pass. -/
theorem C10_open_fill_frame (fuel : ℕ) (cfg : GridConfig) (st : TradingState)
    (trade_price : ℚ) (place_ok : Bool) (new_ids : List String)
    (hlast : st.last_filled_order_is_close_side = false)
    (hfail : if cfg.open_side_is_ask then
        st.current_price ≤ next_open_side_close_price cfg st trade_price
      else next_open_side_close_price cfg st trade_price ≤ st.current_price) :
    on_open_side_filled fuel cfg st trade_price place_ok new_ids = (st, []) := by
  have hnone : calc_next_open_side_close_order cfg st trade_price = none := by
    unfold calc_next_open_side_close_order
    cases hoa : cfg.open_side_is_ask
    · rw [hoa] at hfail
      simp only [hoa, Bool.not_false, if_true, ite_true]
      rw [if_neg (not_lt.mpr hfail)]
    · rw [hoa] at hfail
      simp only [hoa, Bool.not_true, Bool.false_eq_true, if_false, ite_false]
      rw [if_neg (not_lt.mpr hfail)]
  unfold on_open_side_filled
  rw [if_neg (by simp [hlast])]
  dsimp only
  rw [hnone]

theorem C10_open_fill_frame_witness :
    on_open_side_filled 5 cfgLong stC10 (5997/2) true ["n1", "n2"] = (stC10, []) :=
  C10_open_fill_frame 5 cfgLong stC10 (5997/2) true ["n1", "n2"] (by rfl)
    (by norm_num [next_open_side_close_price, values_min, values_max, close_orders_of,
      open_orders_of, listMin, listMax, cfgLong, stC10, stBase, pyRound])

end PerpdexGrid
